import Mathlib

/-!
Shallow embedding of `fetch-utils.js` from mozilla/aretestsfastyet.

The JavaScript module resolves a logical filename into an HTTP response by
combining a harness selector, a JSON fetcher, a Treeherder job locator for
"try" revisions, and a CI artifact resolver.  JavaScript strings are modelled
as Lean `String`s (reasoned about through their `data` character lists), JSON
field values read out of the columnar job rows as `JsVal` (which can be the
JavaScript `undefined` or `null`), and the network as explicit environment
functions from URL strings to responses.  A call to `fetchJson` that returned
`null` (the JS signal for a non-2xx response) is modelled as `Option.none` in
the environments `Env.pushJson` / `Env.jobsJson`.  The unbounded `while (url)`
pagination loop is modelled with explicit fuel; every theorem about it supplies
enough fuel for the page chain at hand.
-/

namespace FetchUtils

/-- A JSON value, as produced by `response.json()`. -/
inductive Json where
  | null : Json
  | bool : Bool → Json
  | num : Int → Json
  | str : String → Json
  | arr : List Json → Json
  | obj : List (String × Json) → Json

/-- A JavaScript value read out of a job row: a string, JS `null`, or JS
`undefined` (the result of indexing an array out of bounds or at `-1`). -/
inductive JsVal where
  | undef : JsVal
  | null : JsVal
  | str : String → JsVal
deriving DecidableEq

/-- JavaScript truthiness for a `JsVal`: only a non-empty string is truthy. -/
def jsTruthy : JsVal → Bool
  | JsVal.str s => !(s == "")
  | _ => false

/-- Template-literal stringification of a `JsVal`, as in `"${taskId}"`. -/
def jsToString : JsVal → String
  | JsVal.str s => s
  | JsVal.null => "null"
  | JsVal.undef => "undefined"

/-- JavaScript `String.prototype.startsWith`. -/
def strStartsWith (s p : String) : Bool := p.data.isPrefixOf s.data

/-- JavaScript `String.prototype.endsWith`. -/
def strEndsWith (s p : String) : Bool := p.data.isSuffixOf s.data

/-- The `endsWith` test applied to a job-row value; in the source it is only
reached after the truthiness filter guarantees a string. -/
def jsEndsWith (v : JsVal) (p : String) : Bool :=
  match v with
  | JsVal.str s => strEndsWith s p
  | _ => false

/-- JavaScript `String.prototype.replace` with a string pattern: replaces the
first occurrence only (in the source the pattern is always `"xpcshell-"`). -/
def replaceFirstAux (pat rep : List Char) : List Char → List Char
  | [] => []
  | c :: rest =>
    if pat.isPrefixOf (c :: rest) then rep ++ (c :: rest).drop pat.length
    else c :: replaceFirstAux pat rep rest

/-- String wrapper for `replaceFirstAux`, modelling `s.replace(pat, rep)`. -/
def jsReplaceFirst (s pat rep : String) : String :=
  { data := replaceFirstAux pat.data rep.data s.data }

/-- An HTTP response as consumed by the orchestrator: `status` and
`statusText` (the fields the module reads besides `ok`). -/
structure Response where
  status : Nat
  statusText : String
deriving DecidableEq

/-- The `ok` flag of a fetch `Response`: status in the range 200–299. -/
def Response.ok (r : Response) : Bool := decide (200 ≤ r.status ∧ r.status ≤ 299)

/-- The synthetic `new Response(null, \x7b status: 404, statusText: msg \x7d)`
built in the orchestrator's catch branch. -/
def errorResponse (msg : String) : Response :=
  { status := 404, statusText := msg }

/-- An HTTP response as consumed by `fetchJson`: its status and the outcome of
`response.json()` (an `Except` because a malformed body throws). -/
structure JsonResponse where
  status : Nat
  body : Except String Json

/-- The `ok` flag of a `JsonResponse`. -/
def JsonResponse.ok (r : JsonResponse) : Bool := decide (200 ≤ r.status ∧ r.status ≤ 299)

/-- Embedding of `fetchJson(url)`: returns `none` (JS `null`) on a non-ok
response, otherwise the result of parsing the body, where a parse error
propagates as `Except.error`. -/
def fetchJson (net : String → JsonResponse) (url : String) : Except String (Option Json) :=
  let response := net url
  if !response.ok then Except.ok none
  else Except.map some response.body

/-- One entry of the push-lookup `results` array; the code reads only `id`. -/
structure PushEntry where
  id : Nat
deriving DecidableEq

/-- The decoded push-lookup payload `\x7b results: [...] \x7d`; `results` is
`none` when the field is absent (the code tests `!pushResult.results`). -/
structure PushResult where
  results : Option (List PushEntry)
deriving DecidableEq

/-- A columnar job row: a positional array of field values. -/
abbrev JobRow := List JsVal

/-- One page of the job-listing payload: `results` rows,
`job_property_names`, and the `next` link (absent on the last page). -/
structure JobsPage where
  results : Option (List JobRow)
  job_property_names : Option (List String)
  next : Option String
deriving DecidableEq

/-- Page-derived configuration: the host name and the `kind` URL parameter
(`URLSearchParams.get` yields `null`, modelled `none`, when absent). -/
structure Page where
  hostname : String
  kindParam : Option String

/-- The network environment: for each URL, the decoded `fetchJson` result of
the push lookup and of a job-listing page (`none` models the `null` that
`fetchJson` returns for a failed page fetch), and the raw response of a plain
`fetch` of an artifact URL. -/
structure Env where
  page : Page
  pushJson : String → Option PushResult
  jobsJson : String → Option JobsPage
  fetchUrl : String → Response

/-- Embedding of `getHarnessType()`: the `kind` URL parameter, with `null` or
the empty string (both falsy) defaulting to `"xpcshell"` via `||`. -/
def getHarnessType (page : Page) : String :=
  match page.kindParam with
  | some kind => if kind = "" then "xpcshell" else kind
  | none => "xpcshell"

/-- The push-lookup URL for a revision. -/
def pushUrl (revision : String) : String :=
  "https://treeherder.mozilla.org/api/project/try/push/?full=true&count=10&revision=" ++ revision

/-- The first job-listing URL for a push id. -/
def jobsUrl (pid : Nat) : String :=
  "https://treeherder.mozilla.org/api/jobs/?push_id=" ++ toString pid

/-- The artifact URL for a task id, `.../task/<taskId>/runs/0/artifacts/public/<filename>`. -/
def taskArtifactUrl (taskId filename : String) : String :=
  "https://firefox-ci-tc.services.mozilla.com/api/queue/v1/task/" ++ taskId
    ++ "/runs/0/artifacts/public/" ++ filename

/-- The CI index URL built by `fetchFromCI`: the repository segment is `try`
exactly when the page host is `fqueze.github.io`, else `mozilla-central`. -/
def ciIndexUrl (page : Page) (harness filename : String) : String :=
  let repository := if page.hostname = "fqueze.github.io" then "try" else "mozilla-central"
  "https://firefox-ci-tc.services.mozilla.com/api/index/v1/task/gecko.v2." ++ repository
    ++ ".latest.source.test-info-" ++ harness ++ "-timings/artifacts/public/" ++ filename

/-- Embedding of `fetchFromCI(harness, filename)`. -/
def fetchFromCI (env : Env) (harness filename : String) : Response :=
  env.fetchUrl (ciIndexUrl env.page harness filename)

/-- The error message thrown when no push exists for a revision. -/
def noPushMsg (revision : String) : String :=
  "No push found for revision " ++ revision ++ " on try"

/-- The error message thrown when a job-listing page fetch fails. -/
def jobsFailMsg (pid : Nat) : String :=
  "Failed to fetch jobs for push ID " ++ toString pid

/-- The error message thrown when no qualifying timings job exists. -/
def noJobMsg (harness revision : String) : String :=
  "No " ++ harness ++ "-timings job found for revision " ++ revision

/-- JavaScript truthiness of the pagination variable `url` in `while (url)`:
`null` / absent and the empty string are falsy. -/
def jsUrlTruthy : Option String → Bool
  | some s => !(s == "")
  | none => false

/-- The `while (url)` pagination loop of `findTimingsJobsForRevision`,
accumulating `allJobs` and `propertyNames`; `fuel` bounds the number of
iterations (the JS loop has no bound; theorems supply enough fuel). -/
def collectJobsLoop (env : Env) (pid : Nat) (fuel : Nat) (url : Option String)
    (allJobs : List JobRow) (propertyNames : List String) :
    Except String (List JobRow × List String) :=
  if jsUrlTruthy url then
    match fuel with
    | 0 => Except.error "jobs listing did not terminate"
    | fuel' + 1 =>
      match env.jobsJson (url.getD "") with
      | none => Except.error (jobsFailMsg pid)
      | some result =>
        collectJobsLoop env pid fuel' result.next
          (allJobs ++ result.results.getD [])
          (if propertyNames.length = 0 then result.job_property_names.getD [] else propertyNames)
  else Except.ok (allJobs, propertyNames)

/-- JavaScript array indexing `row[i]` where `i` may be `-1` (the result of a
failed `indexOf`): out-of-range and negative indices yield `undefined`. -/
def jsIndex (row : JobRow) : Int → JsVal
  | Int.ofNat n => row.getD n JsVal.undef
  | Int.negSucc _ => JsVal.undef

/-- JavaScript `Array.prototype.indexOf`: the first index of `s`, or `-1`. -/
def jsIndexOf (l : List String) (s : String) : Int :=
  match l.findIdx? (fun x => x == s) with
  | some n => Int.ofNat n
  | none => -1

/-- The per-harness scan result (`timingsJobs` in the source), initialised to
JS `null` for both harnesses. -/
structure TimingsJobs where
  xpcshell : JsVal
  mochitest : JsVal
deriving DecidableEq

/-- The `timingsJobs[requestedHarness]` dynamic field access. -/
def TimingsJobs.get (t : TimingsJobs) (harness : String) : JsVal :=
  if harness = "xpcshell" then t.xpcshell
  else if harness = "mochitest" then t.mochitest
  else JsVal.undef

/-- The body of the `for (const job of allJobs)` loop: skip rows failing the
completed/truthy filter, otherwise overwrite the harness whose suffix the
job-type name matches. -/
def scanStep (jobTypeNameIndex taskIdIndex stateIndex : Int)
    (acc : TimingsJobs) (job : JobRow) : TimingsJobs :=
  let jobName := jsIndex job jobTypeNameIndex
  let state := jsIndex job stateIndex
  let taskId := jsIndex job taskIdIndex
  if state ≠ JsVal.str "completed" ∨ ¬ jsTruthy jobName ∨ ¬ jsTruthy taskId then acc
  else if jsEndsWith jobName "xpcshell-timings-rev" then { acc with xpcshell := taskId }
  else if jsEndsWith jobName "mochitest-timings-rev" then { acc with mochitest := taskId }
  else acc

/-- The full scan over the concatenated job rows, with the three field
indices resolved once from `propertyNames`. -/
def scanJobs (propertyNames : List String) (allJobs : List JobRow) : TimingsJobs :=
  allJobs.foldl
    (scanStep (jsIndexOf propertyNames "job_type_name")
      (jsIndexOf propertyNames "task_id")
      (jsIndexOf propertyNames "state"))
    { xpcshell := JsVal.null, mochitest := JsVal.null }

/-- Embedding of `findTimingsJobsForRevision(revision)`: push lookup, the
paginated jobs listing, then the scan; thrown `Error`s are `Except.error`
carrying the message (the source's catch merely logs and rethrows). -/
def findTimingsJobsForRevision (env : Env) (fuel : Nat) (revision : String) :
    Except String TimingsJobs :=
  match env.pushJson (pushUrl revision) with
  | none => Except.error (noPushMsg revision)
  | some pushResult =>
    match pushResult.results with
    | none => Except.error (noPushMsg revision)
    | some [] => Except.error (noPushMsg revision)
    | some (first :: _) =>
      match collectJobsLoop env first.id fuel (some (jobsUrl first.id)) [] [] with
      | Except.error e => Except.error e
      | Except.ok (allJobs, propertyNames) => Except.ok (scanJobs propertyNames allJobs)

/-- One lowercase-hex character, the regex class `[a-f0-9]`. -/
def isHexLower (c : Char) : Bool := ('0' ≤ c && c ≤ '9') || ('a' ≤ c && c ≤ 'f')

/-- Matcher for `/^<harness>-try-([a-f0-9]\x7b40\x7d)\.json$/` for one fixed
harness alternative: the filename is the harness name, `-try-`, exactly 40
lowercase-hex characters, then `.json`; yields the revision on a match. -/
def matchTryRev (harness filename : String) : Option (String × String) :=
  let p := (harness ++ "-try-").data
  let f := filename.data
  if p.isPrefixOf f then
    let rest := f.drop p.length
    if rest.length == 45 && (rest.take 40).all isHexLower && rest.drop 40 == ".json".data then
      some (harness, { data := rest.take 40 })
    else none
  else none

/-- Embedding of `filename.match(/^(xpcshell|mochitest)-try-([a-f0-9]\x7b40\x7d)\.json$/)`:
the capture groups (requested harness, revision), or `none`. -/
def tryMatchFilename (filename : String) : Option (String × String) :=
  match matchTryRev "xpcshell" filename with
  | some r => some r
  | none => matchTryRev "mochitest" filename

/-- The inline harness detection of `fetchData` (lines 150–155): `mochitest-`
filenames, then the `index.json` page-parameter case, else `xpcshell`. -/
def detectHarness (page : Page) (filename : String) : String :=
  if strStartsWith filename "mochitest-" then "mochitest"
  else if filename = "index.json" then getHarnessType page
  else "xpcshell"

/-- Embedding of the remote (`https:`) branch of `fetchData(filename)`: the
try-revision path when the filename matches the try pattern (with all thrown
errors converted to a synthetic 404 response), else the CI-index path with the
legacy `xpcshell-try-` fallback. -/
def fetchDataRemote (env : Env) (fuel : Nat) (filename : String) : Response :=
  match tryMatchFilename filename with
  | some (requestedHarness, revision) =>
    match findTimingsJobsForRevision env fuel revision with
    | Except.error e => errorResponse e
    | Except.ok timingsJobs =>
      let fromRequested : Option Response :=
        if jsTruthy (timingsJobs.get requestedHarness) then
          let response := env.fetchUrl
            (taskArtifactUrl (jsToString (timingsJobs.get requestedHarness)) filename)
          if response.ok then some response else none
        else none
      match fromRequested with
      | some response => response
      | none =>
        if requestedHarness = "xpcshell" ∧ jsTruthy timingsJobs.mochitest then
          env.fetchUrl (taskArtifactUrl (jsToString timingsJobs.mochitest)
            (jsReplaceFirst filename "xpcshell-" "mochitest-"))
        else errorResponse (noJobMsg requestedHarness revision)
  | none =>
    let harness := detectHarness env.page filename
    let response := fetchFromCI env harness filename
    if response.ok then response
    else if strStartsWith filename "xpcshell-try-" then
      fetchFromCI env "mochitest" (jsReplaceFirst filename "xpcshell-" "mochitest-")
    else response

/-- A finite chain of job-listing pages in the environment: starting at URL
`u`, each page fetch succeeds, each page's `next` link is the next URL of the
chain (truthy), and the last page's `next` is falsy. -/
def ChainOk (env : Env) : String → List JobsPage → Prop
  | _, [] => False
  | u, p :: ps =>
    env.jobsJson u = some p ∧
      match ps with
      | [] => jsUrlTruthy p.next = false
      | _ :: _ => ∃ u2, p.next = some u2 ∧ u2 ≠ "" ∧ ChainOk env u2 ps

/-- A chain of job-listing pages that ends at a URL whose `fetchJson` returns
`null`: the pages listed fetch fine and link onward, and the URL after the
last listed page fails. -/
def ChainFail (env : Env) : String → List JobsPage → Prop
  | u, [] => env.jobsJson u = none
  | u, p :: ps =>
    env.jobsJson u = some p ∧ ∃ u2, p.next = some u2 ∧ u2 ≠ "" ∧ ChainFail env u2 ps

/-- The concatenation, in order, of the row batches of a list of pages. -/
def pagesRows (pages : List JobsPage) : List JobRow :=
  (pages.map (fun p => p.results.getD [])).flatten

/-- The property-name accumulation over a list of pages: the first page with a
non-empty `job_property_names` wins (starting from `propertyNames`). -/
def pagesProps (propertyNames : List String) (pages : List JobsPage) : List String :=
  pages.foldl
    (fun acc p => if acc.length = 0 then p.job_property_names.getD [] else acc)
    propertyNames

/-- The completed/truthy row filter of the scan together with the job-type
suffix test, with the three positional indices given explicitly. -/
def rowQualifies (jobTypeNameIndex taskIdIndex stateIndex : Int) (sfx : String)
    (job : JobRow) : Bool :=
  (jsIndex job stateIndex == JsVal.str "completed")
    && jsTruthy (jsIndex job jobTypeNameIndex)
    && jsTruthy (jsIndex job taskIdIndex)
    && jsEndsWith (jsIndex job jobTypeNameIndex) sfx

/-- Modelled from the spec: the task id of the last listed row that passes the
completed/truthy filter and whose job-type name ends with the given suffix, or
JS `null` when no such row exists ("last match in iteration order wins"). -/
def lastQualifyingTask (propertyNames : List String) (sfx : String)
    (allJobs : List JobRow) : JsVal :=
  match (allJobs.filter
      (rowQualifies (jsIndexOf propertyNames "job_type_name")
        (jsIndexOf propertyNames "task_id")
        (jsIndexOf propertyNames "state") sfx)).getLast? with
  | some j => jsIndex j (jsIndexOf propertyNames "task_id")
  | none => JsVal.null

/-! Concrete fixtures used to exercise the definitions on closed inputs. -/

/-- A fixed 40-character lowercase-hex try revision. -/
def tryRev : String := "0123456789abcdef0123456789abcdef01234567"

/-- The xpcshell try filename for `tryRev`. -/
def tryFileX : String := "xpcshell-try-" ++ tryRev ++ ".json"

/-- The mochitest try filename for `tryRev`. -/
def tryFileM : String := "mochitest-try-" ++ tryRev ++ ".json"

/-- First page of a two-page job listing, linking to `"page2"`. -/
def pageOne : JobsPage :=
  { results := some
      [[JsVal.str "source-test-xpcshell-timings-rev", JsVal.str "T1", JsVal.str "completed"]],
    job_property_names := some ["job_type_name", "task_id", "state"],
    next := some "page2" }

/-- Second page of the two-page job listing, with no further link. -/
def pageTwo : JobsPage :=
  { results := some
      [[JsVal.str "source-test-xpcshell-timings-rev", JsVal.str "T2", JsVal.str "completed"]],
    job_property_names := none,
    next := none }

/-- A single page holding one completed timings job per harness. -/
def pageBoth : JobsPage :=
  { results := some
      [[JsVal.str "source-test-xpcshell-timings-rev", JsVal.str "TX", JsVal.str "completed"],
       [JsVal.str "source-test-mochitest-timings-rev", JsVal.str "TM", JsVal.str "completed"]],
    job_property_names := some ["job_type_name", "task_id", "state"],
    next := none }

/-- Environment with one push (id 7) for `tryRev` and the two-page listing;
all artifact fetches fail. -/
def envTwoPages : Env :=
  { page := { hostname := "example.org", kindParam := none },
    pushJson := fun u => if u = pushUrl tryRev then some { results := some [{ id := 7 }] } else none,
    jobsJson := fun u =>
      if u = jobsUrl 7 then some pageOne
      else if u = "page2" then some pageTwo
      else none,
    fetchUrl := fun _ => { status := 404, statusText := "not found" } }

/-- Environment like `envTwoPages` whose second listing page fails to fetch. -/
def envPageFail : Env :=
  { page := { hostname := "example.org", kindParam := none },
    pushJson := fun u => if u = pushUrl tryRev then some { results := some [{ id := 7 }] } else none,
    jobsJson := fun u => if u = jobsUrl 7 then some pageOne else none,
    fetchUrl := fun _ => { status := 404, statusText := "not found" } }

/-- Environment with one push for `tryRev`, both timings jobs on one page, a
successful fetch of the mochitest artifact, and failing fetches otherwise. -/
def envTryBoth : Env :=
  { page := { hostname := "example.org", kindParam := none },
    pushJson := fun u => if u = pushUrl tryRev then some { results := some [{ id := 7 }] } else none,
    jobsJson := fun u => if u = jobsUrl 7 then some pageBoth else none,
    fetchUrl := fun u =>
      if u = taskArtifactUrl "TM" tryFileM then { status := 200, statusText := "OK" }
      else { status := 404, statusText := "not found" } }

/-- Environment with one push for `tryRev` but an empty job listing. -/
def envNoJobs : Env :=
  { page := { hostname := "example.org", kindParam := none },
    pushJson := fun u => if u = pushUrl tryRev then some { results := some [{ id := 7 }] } else none,
    jobsJson := fun u =>
      if u = jobsUrl 7 then
        some { results := some [], job_property_names := some [], next := none }
      else none,
    fetchUrl := fun _ => { status := 404, statusText := "not found" } }

/-- Environment where every lookup and fetch fails. -/
def env404 : Env :=
  { page := { hostname := "example.org", kindParam := none },
    pushJson := fun _ => none,
    jobsJson := fun _ => none,
    fetchUrl := fun _ => { status := 404, statusText := "not found" } }

/-- Environment where every artifact fetch succeeds with a 200. -/
def env200 : Env :=
  { page := { hostname := "example.org", kindParam := none },
    pushJson := fun _ => none,
    jobsJson := fun _ => none,
    fetchUrl := fun _ => { status := 200, statusText := "OK" } }

/-- The scan result on `pageBoth`: both harness task ids found. -/
def tjBoth : TimingsJobs :=
  { xpcshell := JsVal.str "TX", mochitest := JsVal.str "TM" }

/-- The scan result on the two-page listing: only xpcshell found, last page
winning. -/
def tjTwoPages : TimingsJobs :=
  { xpcshell := JsVal.str "T2", mochitest := JsVal.null }

/-- A network where every URL answers 200 with a valid JSON body. -/
def netOkJson : String → JsonResponse :=
  fun _ => { status := 200, body := Except.ok (Json.num 1) }

/-- A network where every URL answers 500. -/
def net500 : String → JsonResponse :=
  fun _ => { status := 500, body := Except.ok Json.null }

/-- A network where every URL answers 200 with a malformed body. -/
def netBadBody : String → JsonResponse :=
  fun _ => { status := 200, body := Except.error "SyntaxError" }

/-! Helper lemmas about the character-list string model. -/

/-- Two strings with the same character data are equal. -/
theorem string_eq_of_data {s t : String} (h : s.data = t.data) : s = t := by
  cases s; cases t; simp_all

/-- Unfolding of `List.isPrefixOf` into an existential decomposition. -/
theorem isPrefixOf_iff_exists : ∀ {l₁ l₂ : List Char},
    l₁.isPrefixOf l₂ = true ↔ ∃ t, l₁ ++ t = l₂ := by
  intro l₁
  induction l₁ with
  | nil => intro l₂; simp [List.isPrefixOf]
  | cons a as ih =>
    intro l₂
    cases l₂ with
    | nil => simp [List.isPrefixOf]
    | cons b bs =>
      simp only [List.isPrefixOf, Bool.and_eq_true, beq_iff_eq, ih]
      constructor
      · rintro ⟨rfl, t, rfl⟩
        exact ⟨t, rfl⟩
      · rintro ⟨t, ht⟩
        obtain ⟨rfl, h2⟩ := List.cons.inj ht
        exact ⟨rfl, t, h2⟩

/-- Unfolding of `List.isSuffixOf` into an existential decomposition. -/
theorem isSuffixOf_iff_exists {l₁ l₂ : List Char} :
    l₁.isSuffixOf l₂ = true ↔ ∃ t, t ++ l₁ = l₂ := by
  rw [List.isSuffixOf, isPrefixOf_iff_exists]
  constructor
  · rintro ⟨t, ht⟩
    refine ⟨t.reverse, ?_⟩
    have h2 := congrArg List.reverse ht
    simp at h2
    exact h2
  · rintro ⟨t, rfl⟩
    exact ⟨t.reverse, by simp⟩

/-- A string cannot end with both `xpcshell-timings-rev` and
`mochitest-timings-rev`: the two suffixes disagree on their last 20
characters. -/
theorem strEndsWith_timings_excl {s : String}
    (hx : strEndsWith s "xpcshell-timings-rev" = true)
    (hm : strEndsWith s "mochitest-timings-rev" = true) : False := by
  obtain ⟨t, ht⟩ := isSuffixOf_iff_exists.mp hx
  obtain ⟨u, hu⟩ := isSuffixOf_iff_exists.mp hm
  have h : t ++ "xpcshell-timings-rev".data
      = (u ++ ['m']) ++ "ochitest-timings-rev".data := by
    rw [ht, ← hu, List.append_assoc]
    exact congrArg (u ++ ·) (by decide)
  have h2 := (List.append_inj' h (by decide)).2
  exact absurd h2 (by decide)

/-- Replacing the first occurrence of a non-empty pattern that sits at the
very front of the list substitutes it there. -/
theorem replaceFirstAux_front (pat rep t : List Char) (hp : pat ≠ []) :
    replaceFirstAux pat rep (pat ++ t) = rep ++ t := by
  cases pat with
  | nil => exact absurd rfl hp
  | cons c cs =>
    rw [List.cons_append, replaceFirstAux]
    rw [if_pos (isPrefixOf_iff_exists.mpr ⟨t, by simp⟩)]
    have hdrop : (c :: (cs ++ t)).drop (c :: cs).length = t := by simp
    rw [hdrop]

/-- The `xpcshell-` → `mochitest-` rewrite on a filename that starts with
`xpcshell-` substitutes exactly that leading occurrence. -/
theorem jsReplaceFirst_xpc (tail : String) :
    jsReplaceFirst ("xpcshell-" ++ tail) "xpcshell-" "mochitest-" = "mochitest-" ++ tail := by
  apply string_eq_of_data
  show replaceFirstAux "xpcshell-".data "mochitest-".data ("xpcshell-" ++ tail).data
      = ("mochitest-" ++ tail).data
  rw [String.data_append, String.data_append]
  exact replaceFirstAux_front _ _ _ (by decide)

/-- A missing property name makes `jsIndexOf` yield `-1`. -/
theorem jsIndexOf_of_not_mem {l : List String} {s : String} (h : s ∉ l) :
    jsIndexOf l s = -1 := by
  have hnone : ∀ (l' : List String) (i : Nat), s ∉ l' →
      l'.findIdx? (fun x => x == s) i = none := by
    intro l'
    induction l' with
    | nil => intro _ _; rfl
    | cons a t ih =>
      intro i hmem
      have ha : (a == s) = false := by
        simp only [beq_eq_false_iff_ne]
        rintro rfl
        exact hmem (List.mem_cons_self a t)
      show (if (a == s) = true then some i else t.findIdx? (fun x => x == s) (i + 1)) = none
      rw [ha]
      simp only [Bool.false_eq_true, if_false]
      exact ih (i + 1) (fun hm => hmem (List.mem_cons_of_mem a hm))
  rw [jsIndexOf, hnone l 0 h]

/-- The first job-listing URL is never the empty string. -/
theorem jobsUrl_ne_empty (pid : Nat) : jobsUrl pid ≠ "" := by
  intro h
  have h2 : (jobsUrl pid).data = [] := by rw [h]
  rw [jobsUrl, String.data_append] at h2
  rw [List.append_eq_nil] at h2
  exact absurd h2.1 (by decide)

/-! Lemmas about the pagination loop. -/

/-- A truthy plain URL string is truthy as a loop variable. -/
theorem jsUrlTruthy_some {u : String} (h : u ≠ "") : jsUrlTruthy (some u) = true := by
  simp [jsUrlTruthy, h]

/-- Following an intact chain of pages, the loop returns the accumulated rows
of every page, in order, and the accumulated property names. -/
theorem collectJobsLoop_chainOk (env : Env) (pid : Nat) (pages : List JobsPage) :
    ∀ (u : String) (fuel : Nat) (acc : List JobRow) (props : List String),
      ChainOk env u pages → u ≠ "" → pages.length ≤ fuel →
      collectJobsLoop env pid fuel (some u) acc props =
        Except.ok (acc ++ pagesRows pages, pagesProps props pages) := by
  induction pages with
  | nil =>
    intro u fuel acc props hch _ _
    exact absurd hch (by simp [ChainOk])
  | cons p ps ih =>
    intro u fuel acc props hch hu hfuel
    obtain ⟨hfetch, hrest⟩ := hch
    cases fuel with
    | zero => simp at hfuel
    | succ fuel' =>
      rw [collectJobsLoop.eq_def, if_pos (jsUrlTruthy_some hu)]
      simp only [Option.getD_some, hfetch]
      cases ps with
      | nil =>
        simp only [ChainOk] at hrest
        rw [collectJobsLoop.eq_def]
        rw [hrest]
        simp only [Bool.false_eq_true, if_false]
        simp [pagesRows, pagesProps]
      | cons q qs =>
        obtain ⟨u2, hnext, hu2, hch2⟩ := hrest
        rw [hnext]
        rw [ih u2 fuel' _ _ hch2 hu2 (by simp at hfuel ⊢; omega)]
        simp [pagesRows, pagesProps, List.append_assoc]

/-- Following a chain of pages whose onward link fetches to `null`, the loop
fails with the jobs-listing error. -/
theorem collectJobsLoop_chainFail (env : Env) (pid : Nat) (pages : List JobsPage) :
    ∀ (u : String) (fuel : Nat) (acc : List JobRow) (props : List String),
      ChainFail env u pages → u ≠ "" → pages.length + 1 ≤ fuel →
      collectJobsLoop env pid fuel (some u) acc props =
        Except.error (jobsFailMsg pid) := by
  induction pages with
  | nil =>
    intro u fuel acc props hch hu hfuel
    simp only [ChainFail] at hch
    cases fuel with
    | zero => simp at hfuel
    | succ fuel' =>
      rw [collectJobsLoop.eq_def, if_pos (jsUrlTruthy_some hu)]
      simp only [Option.getD_some, hch]
  | cons p ps ih =>
    intro u fuel acc props hch hu hfuel
    obtain ⟨hfetch, u2, hnext, hu2, hch2⟩ := hch
    cases fuel with
    | zero => simp at hfuel
    | succ fuel' =>
      rw [collectJobsLoop.eq_def, if_pos (jsUrlTruthy_some hu)]
      simp only [Option.getD_some, hfetch, hnext]
      exact ih u2 fuel' _ _ hch2 hu2 (by simp at hfuel ⊢; omega)

/-- A failing push lookup (null payload, missing `results`, or empty
`results`) makes the locator throw the no-push error. -/
theorem findTimingsJobs_push_fail {env : Env} {fuel : Nat} {rev : String}
    (h : env.pushJson (pushUrl rev) = none
      ∨ env.pushJson (pushUrl rev) = some { results := none }
      ∨ env.pushJson (pushUrl rev) = some { results := some [] }) :
    findTimingsJobsForRevision env fuel rev = Except.error (noPushMsg rev) := by
  rcases h with h | h | h <;> simp [findTimingsJobsForRevision, h]

/-- With a good push lookup and an intact page chain, the locator scans the
concatenation of all pages' rows. -/
theorem findTimingsJobs_chainOk {env : Env} {fuel : Nat} {rev : String}
    {pid : Nat} {others : List PushEntry} {pages : List JobsPage}
    (hpush : env.pushJson (pushUrl rev)
      = some { results := some ({ id := pid } :: others) })
    (hch : ChainOk env (jobsUrl pid) pages) (hfuel : pages.length ≤ fuel) :
    findTimingsJobsForRevision env fuel rev
      = Except.ok (scanJobs (pagesProps [] pages) (pagesRows pages)) := by
  simp only [findTimingsJobsForRevision, hpush]
  rw [collectJobsLoop_chainOk env pid pages (jobsUrl pid) fuel [] []
    hch (jobsUrl_ne_empty pid) hfuel]
  simp

/-- With a good push lookup and a page chain that runs into a failing fetch,
the locator throws the jobs-listing error. -/
theorem findTimingsJobs_chainFail {env : Env} {fuel : Nat} {rev : String}
    {pid : Nat} {others : List PushEntry} {pages : List JobsPage}
    (hpush : env.pushJson (pushUrl rev)
      = some { results := some ({ id := pid } :: others) })
    (hch : ChainFail env (jobsUrl pid) pages) (hfuel : pages.length + 1 ≤ fuel) :
    findTimingsJobsForRevision env fuel rev = Except.error (jobsFailMsg pid) := by
  simp only [findTimingsJobsForRevision, hpush]
  rw [collectJobsLoop_chainFail env pid pages (jobsUrl pid) fuel [] []
    hch (jobsUrl_ne_empty pid) hfuel]

/-! Lemmas about the row scan. -/

/-- A qualifying xpcshell row makes the step overwrite the xpcshell slot with
the row's task id. -/
theorem scanStep_xpc_of_qual {ji ti si : Int} {acc : TimingsJobs} {j : JobRow}
    (h : rowQualifies ji ti si "xpcshell-timings-rev" j = true) :
    scanStep ji ti si acc j = { acc with xpcshell := jsIndex j ti } := by
  unfold rowQualifies at h
  simp only [Bool.and_eq_true, beq_iff_eq] at h
  obtain ⟨⟨⟨hst, hn⟩, ht⟩, he⟩ := h
  have hcond : ¬(jsIndex j si ≠ JsVal.str "completed" ∨
      ¬ jsTruthy (jsIndex j ji) ∨ ¬ jsTruthy (jsIndex j ti)) := by
    push_neg
    exact ⟨hst, by simp [hn], by simp [ht]⟩
  simp only [scanStep]
  rw [if_neg hcond, if_pos he]

/-- A qualifying mochitest row makes the step overwrite the mochitest slot
with the row's task id (its name cannot also end with the xpcshell suffix). -/
theorem scanStep_moch_of_qual {ji ti si : Int} {acc : TimingsJobs} {j : JobRow}
    (h : rowQualifies ji ti si "mochitest-timings-rev" j = true) :
    scanStep ji ti si acc j = { acc with mochitest := jsIndex j ti } := by
  unfold rowQualifies at h
  simp only [Bool.and_eq_true, beq_iff_eq] at h
  obtain ⟨⟨⟨hst, hn⟩, ht⟩, he⟩ := h
  have hcond : ¬(jsIndex j si ≠ JsVal.str "completed" ∨
      ¬ jsTruthy (jsIndex j ji) ∨ ¬ jsTruthy (jsIndex j ti)) := by
    push_neg
    exact ⟨hst, by simp [hn], by simp [ht]⟩
  have hnx : jsEndsWith (jsIndex j ji) "xpcshell-timings-rev" = false := by
    cases hv : jsIndex j ji with
    | str s =>
      rw [hv] at he
      simp only [jsEndsWith] at he ⊢
      cases hx : strEndsWith s "xpcshell-timings-rev" with
      | false => rfl
      | true => exact absurd (strEndsWith_timings_excl hx he) id
    | undef => rfl
    | null => rfl
  simp only [scanStep]
  rw [if_neg hcond, if_neg (by simp [hnx]), if_pos he]

/-- A non-qualifying xpcshell row leaves the xpcshell slot unchanged. -/
theorem scanStep_xpc_of_not_qual {ji ti si : Int} {acc : TimingsJobs} {j : JobRow}
    (h : rowQualifies ji ti si "xpcshell-timings-rev" j = false) :
    (scanStep ji ti si acc j).xpcshell = acc.xpcshell := by
  simp only [scanStep]
  split
  · rfl
  · rename_i hcond
    push_neg at hcond
    obtain ⟨hst, hn, ht⟩ := hcond
    split
    · rename_i hends
      exfalso
      have hq : rowQualifies ji ti si "xpcshell-timings-rev" j = true := by
        rw [rowQualifies]
        simp [hst, hn, ht, hends]
      rw [hq] at h
      exact absurd h (by simp)
    · split <;> rfl

/-- A non-qualifying mochitest row leaves the mochitest slot unchanged. -/
theorem scanStep_moch_of_not_qual {ji ti si : Int} {acc : TimingsJobs} {j : JobRow}
    (h : rowQualifies ji ti si "mochitest-timings-rev" j = false) :
    (scanStep ji ti si acc j).mochitest = acc.mochitest := by
  simp only [scanStep]
  split
  · rfl
  · rename_i hcond
    push_neg at hcond
    obtain ⟨hst, hn, ht⟩ := hcond
    split
    · rfl
    · split
      · rename_i hends
        exfalso
        have hq : rowQualifies ji ti si "mochitest-timings-rev" j = true := by
          rw [rowQualifies]
          simp [hst, hn, ht, hends]
        rw [hq] at h
        exact absurd h (by simp)
      · rfl

/-- Folding an overwrite-on-qualify step over a list leaves, in the selected
slot, the recorded value of the last qualifying element, or the initial slot
value when none qualifies. -/
theorem foldl_last_update {α : Type} (f : TimingsJobs → α → TimingsJobs)
    (sel : TimingsJobs → JsVal) (q : α → Bool) (tsk : α → JsVal)
    (h1 : ∀ acc j, q j = true → sel (f acc j) = tsk j)
    (h2 : ∀ acc j, q j = false → sel (f acc j) = sel acc)
    (jobs : List α) :
    ∀ acc : TimingsJobs,
      sel (jobs.foldl f acc) =
        match (jobs.filter q).getLast? with
        | some j => tsk j
        | none => sel acc := by
  induction jobs with
  | nil => intro acc; simp
  | cons j rest ih =>
    intro acc
    rw [List.foldl_cons, ih (f acc j)]
    cases hq : q j with
    | true =>
      rw [List.filter_cons_of_pos hq]
      cases hfr : rest.filter q with
      | nil => simp [h1 acc j hq]
      | cons a l =>
        rw [List.getLast?_cons_cons]
        cases hlast : (a :: l).getLast? with
        | none => simp at hlast
        | some b => rfl
    | false =>
      rw [List.filter_cons_of_neg (by simp [hq])]
      cases hfr : rest.filter q with
      | nil => simp [h2 acc j hq]
      | cons a l =>
        cases hlast : (a :: l).getLast? with
        | none => simp at hlast
        | some b => rfl

/-! Characterisation of the try-revision filename pattern. -/

/-- Rebuilding a string from its character data is the identity. -/
theorem string_mk_data (s : String) : String.mk s.data = s := by cases s; rfl

/-- String length is the length of the character data. -/
theorem string_length_data (s : String) : s.length = s.data.length := rfl

/-- The single-harness matcher succeeds exactly on `harness ++ "-try-" ++ rev
++ ".json"` with `rev` of length 40 over `[a-f0-9]`, and then returns the
harness and that revision. -/
theorem matchTryRev_eq_some_iff {harness filename h' rev : String} :
    matchTryRev harness filename = some (h', rev) ↔
      h' = harness ∧ rev.length = 40 ∧ rev.data.all isHexLower = true ∧
        filename = harness ++ "-try-" ++ rev ++ ".json" := by
  constructor
  · intro h
    simp only [matchTryRev] at h
    split at h
    case isFalse => exact absurd h (by simp)
    case isTrue hpre =>
      split at h
      case isFalse => exact absurd h (by simp)
      case isTrue hcond =>
        obtain ⟨t, hft⟩ := isPrefixOf_iff_exists.mp hpre
        rw [← hft, List.drop_left] at hcond h
        simp only [Bool.and_eq_true, beq_iff_eq] at hcond
        obtain ⟨⟨h45, hhex⟩, hjson⟩ := hcond
        injection h with h2
        have hh : h' = harness := (congrArg Prod.fst h2).symm
        have hr : String.mk (t.take 40) = rev := congrArg Prod.snd h2
        have hrd : rev.data = t.take 40 := by rw [← hr]
        refine ⟨hh, ?_, ?_, ?_⟩
        · rw [string_length_data, hrd, List.length_take, h45]
          decide
        · rw [hrd]; exact hhex
        · apply string_eq_of_data
          rw [← hft]
          simp only [String.data_append, List.append_assoc]
          refine congrArg (harness.data ++ ·) (congrArg ("-try-".data ++ ·) ?_)
          rw [hrd, ← hjson]
          exact (List.take_append_drop 40 t).symm
  · rintro ⟨hh, hlen, hhex, hfn⟩
    subst hfn
    rw [hh]
    have h40 : rev.data.length = 40 := by rw [← string_length_data]; exact hlen
    have hdata : (harness ++ "-try-" ++ rev ++ ".json").data
        = (harness ++ "-try-").data ++ (rev.data ++ ".json".data) := by
      simp [String.data_append, List.append_assoc]
    have hp : (harness ++ "-try-").data.isPrefixOf
        ((harness ++ "-try-").data ++ (rev.data ++ ".json".data)) = true :=
      isPrefixOf_iff_exists.mpr ⟨rev.data ++ ".json".data, rfl⟩
    have h45 : (rev.data ++ ".json".data).length = 45 := by
      simp [List.length_append, h40]
    have htk : (rev.data ++ ".json".data).take 40 = rev.data := List.take_left' h40
    have hdp : (rev.data ++ ".json".data).drop 40 = ".json".data := List.drop_left' h40
    simp only [matchTryRev, hdata, List.drop_left, hp, if_true, h45, htk, hdp, hhex]
    simp only [string_mk_data]
    simp

/-- The try-revision regex matcher succeeds exactly on
`(xpcshell|mochitest)-try-<40 lowercase hex>.json`, returning the requested
harness and the revision. -/
theorem tryMatchFilename_eq_some_iff {filename h' rev : String} :
    tryMatchFilename filename = some (h', rev) ↔
      (h' = "xpcshell" ∨ h' = "mochitest") ∧ rev.length = 40 ∧
        rev.data.all isHexLower = true ∧
        filename = h' ++ "-try-" ++ rev ++ ".json" := by
  constructor
  · intro h
    rw [tryMatchFilename] at h
    cases hx : matchTryRev "xpcshell" filename with
    | some r =>
      rw [hx] at h
      injection h with h2
      rw [h2] at hx
      obtain ⟨hh, hrest⟩ := matchTryRev_eq_some_iff.mp hx
      exact ⟨Or.inl hh, by rw [hh]; exact hrest⟩
    | none =>
      rw [hx] at h
      obtain ⟨hh, hrest⟩ := matchTryRev_eq_some_iff.mp h
      exact ⟨Or.inr hh, by rw [hh]; exact hrest⟩
  · rintro ⟨hh | hh, hlen, hhex, hfn⟩
    · rw [tryMatchFilename]
      rw [matchTryRev_eq_some_iff.mpr ⟨hh, hlen, hhex, by rw [← hh]; exact hfn⟩]
    · have hx : matchTryRev "xpcshell" filename = none := by
        cases hx2 : matchTryRev "xpcshell" filename with
        | none => rfl
        | some r =>
          exfalso
          obtain ⟨a, b⟩ := r
          obtain ⟨_, _, _, hfn2⟩ := matchTryRev_eq_some_iff.mp hx2
          rw [hfn, hh] at hfn2
          have hd := congrArg String.data hfn2
          simp only [String.data_append, List.append_assoc] at hd
          simp only [List.cons_append] at hd
          injection hd with hd1 _
          exact absurd hd1 (by decide)
      rw [tryMatchFilename, hx]
      exact matchTryRev_eq_some_iff.mpr ⟨hh, hlen, hhex, by rw [← hh]; exact hfn⟩

/-! Lemmas about the orchestrator's branches. -/

/-- Dynamic access at `"xpcshell"` reads the xpcshell slot. -/
theorem timingsJobs_get_xpc (tj : TimingsJobs) : tj.get "xpcshell" = tj.xpcshell := by
  rw [TimingsJobs.get, if_pos rfl]

/-- Dynamic access at `"mochitest"` reads the mochitest slot. -/
theorem timingsJobs_get_moch (tj : TimingsJobs) : tj.get "mochitest" = tj.mochitest := by
  rw [TimingsJobs.get, if_neg (by decide), if_pos rfl]

/-- A try-pattern filename whose locator run throws yields the synthetic 404
response carrying the error message. -/
theorem fetchDataRemote_try_error {env : Env} {fuel : Nat}
    {filename h' rev e : String}
    (hm : tryMatchFilename filename = some (h', rev))
    (he : findTimingsJobsForRevision env fuel rev = Except.error e) :
    fetchDataRemote env fuel filename = errorResponse e := by
  simp only [fetchDataRemote, hm, he]

/-- In the try branch, when the requested harness yields no usable artifact
(no task id, or its fetch is not ok), the result is the mochitest fallback
fetch when the request was xpcshell and a mochitest task id exists, else the
synthetic no-job 404. -/
theorem fetchDataRemote_try_noRequested {env : Env} {fuel : Nat}
    {filename h' rev : String} {tj : TimingsJobs}
    (hm : tryMatchFilename filename = some (h', rev))
    (ht : findTimingsJobsForRevision env fuel rev = Except.ok tj)
    (hfail : jsTruthy (tj.get h') = false
      ∨ (env.fetchUrl (taskArtifactUrl (jsToString (tj.get h')) filename)).ok = false) :
    fetchDataRemote env fuel filename =
      (if h' = "xpcshell" ∧ jsTruthy tj.mochitest = true then
        env.fetchUrl (taskArtifactUrl (jsToString tj.mochitest)
          (jsReplaceFirst filename "xpcshell-" "mochitest-"))
      else errorResponse (noJobMsg h' rev)) := by
  simp only [fetchDataRemote, hm, ht]
  by_cases htr : jsTruthy (tj.get h') = true
  · rcases hfail with hnt | hnok
    · rw [htr] at hnt
      exact absurd hnt (by decide)
    · simp [htr, hnok]
  · have hnt : jsTruthy (tj.get h') = false := by
      cases hv : jsTruthy (tj.get h')
      · rfl
      · exact absurd hv htr
    simp [hnt]

/-- Unfolding of the non-try remote branch: the CI-index fetch for the
detected harness, with the legacy fallback exactly when it failed and the
filename starts with `xpcshell-try-`. -/
theorem fetchDataRemote_nonTry {env : Env} {fuel : Nat} {filename : String}
    (hm : tryMatchFilename filename = none) :
    fetchDataRemote env fuel filename =
      (if (fetchFromCI env (detectHarness env.page filename) filename).ok = true then
        fetchFromCI env (detectHarness env.page filename) filename
      else if strStartsWith filename "xpcshell-try-" = true then
        fetchFromCI env "mochitest" (jsReplaceFirst filename "xpcshell-" "mochitest-")
      else fetchFromCI env (detectHarness env.page filename) filename) := by
  simp only [fetchDataRemote, hm]

/-- The xpcshell → mochitest renaming on a try filename substitutes the
leading `xpcshell-` and keeps the rest. -/
theorem xpc_moch_rename (rev : String) :
    jsReplaceFirst ("xpcshell" ++ "-try-" ++ rev ++ ".json") "xpcshell-" "mochitest-"
      = "mochitest" ++ "-try-" ++ rev ++ ".json" := by
  apply string_eq_of_data
  show replaceFirstAux "xpcshell-".data "mochitest-".data
      ("xpcshell" ++ "-try-" ++ rev ++ ".json").data
    = ("mochitest" ++ "-try-" ++ rev ++ ".json").data
  have hl : ("xpcshell" ++ "-try-" ++ rev ++ ".json").data
      = "xpcshell-".data ++ ("try-".data ++ (rev.data ++ ".json".data)) := by
    simp [String.data_append, List.append_assoc]
  rw [hl, replaceFirstAux_front _ _ _ (by decide)]
  simp [String.data_append, List.append_assoc]

/-! Claim theorems. -/

/-- C2: for each harness, the scan over the concatenated rows yields the task
id of the last listed row that is exactly `"completed"` with truthy job-type
name and task id and whose job-type name ends with `<harness>-timings-rev`
(later matches overwrite earlier ones), and JS `null` when no row qualifies;
rows failing the completed/truthy filter are skipped even when the name
matches. -/
theorem scanJobs_last_completed_match (propertyNames : List String)
    (allJobs : List JobRow) :
    (scanJobs propertyNames allJobs).xpcshell
        = lastQualifyingTask propertyNames "xpcshell-timings-rev" allJobs
      ∧ (scanJobs propertyNames allJobs).mochitest
        = lastQualifyingTask propertyNames "mochitest-timings-rev" allJobs := by
  constructor
  · rw [scanJobs, lastQualifyingTask]
    rw [foldl_last_update
      (scanStep (jsIndexOf propertyNames "job_type_name")
        (jsIndexOf propertyNames "task_id") (jsIndexOf propertyNames "state"))
      TimingsJobs.xpcshell
      (rowQualifies (jsIndexOf propertyNames "job_type_name")
        (jsIndexOf propertyNames "task_id") (jsIndexOf propertyNames "state")
        "xpcshell-timings-rev")
      (fun j => jsIndex j (jsIndexOf propertyNames "task_id"))
      (fun acc j hq => by rw [scanStep_xpc_of_qual hq])
      (fun acc j hq => scanStep_xpc_of_not_qual hq)
      allJobs]
    cases (List.filter
        (rowQualifies (jsIndexOf propertyNames "job_type_name")
          (jsIndexOf propertyNames "task_id") (jsIndexOf propertyNames "state")
          "xpcshell-timings-rev") allJobs).getLast? with
    | none => rfl
    | some j => rfl
  · rw [scanJobs, lastQualifyingTask]
    rw [foldl_last_update
      (scanStep (jsIndexOf propertyNames "job_type_name")
        (jsIndexOf propertyNames "task_id") (jsIndexOf propertyNames "state"))
      TimingsJobs.mochitest
      (rowQualifies (jsIndexOf propertyNames "job_type_name")
        (jsIndexOf propertyNames "task_id") (jsIndexOf propertyNames "state")
        "mochitest-timings-rev")
      (fun j => jsIndex j (jsIndexOf propertyNames "task_id"))
      (fun acc j hq => by rw [scanStep_moch_of_qual hq])
      (fun acc j hq => scanStep_moch_of_not_qual hq)
      allJobs]
    cases (List.filter
        (rowQualifies (jsIndexOf propertyNames "job_type_name")
          (jsIndexOf propertyNames "task_id") (jsIndexOf propertyNames "state")
          "mochitest-timings-rev") allJobs).getLast? with
    | none => rfl
    | some j => rfl

/-- C10: when the property-name list lacks `job_type_name`, `task_id` and
`state`, every index is `-1`, every row reads `undefined`, the scan throws
nothing and both harness results stay JS `null`. -/
theorem scanJobs_without_property_names (propertyNames : List String)
    (allJobs : List JobRow)
    (_h1 : "job_type_name" ∉ propertyNames) (_h2 : "task_id" ∉ propertyNames)
    (h3 : "state" ∉ propertyNames) :
    scanJobs propertyNames allJobs
      = { xpcshell := JsVal.null, mochitest := JsVal.null } := by
  have hsi : jsIndexOf propertyNames "state" = -1 := jsIndexOf_of_not_mem h3
  have hstep : ∀ (acc : TimingsJobs) (j : JobRow),
      scanStep (jsIndexOf propertyNames "job_type_name")
        (jsIndexOf propertyNames "task_id")
        (jsIndexOf propertyNames "state") acc j = acc := by
    intro acc j
    simp only [scanStep, hsi]
    have hcond : jsIndex j (-1) ≠ JsVal.str "completed" ∨
        ¬jsTruthy (jsIndex j (jsIndexOf propertyNames "job_type_name")) = true ∨
          ¬jsTruthy (jsIndex j (jsIndexOf propertyNames "task_id")) = true :=
      Or.inl (fun hc => nomatch hc)
    rw [if_pos hcond]
  have hfold : ∀ (l : List JobRow) (acc : TimingsJobs),
      l.foldl (scanStep (jsIndexOf propertyNames "job_type_name")
        (jsIndexOf propertyNames "task_id")
        (jsIndexOf propertyNames "state")) acc = acc := by
    intro l
    induction l with
    | nil => intro acc; rfl
    | cons a t ih =>
      intro acc
      rw [List.foldl_cons, hstep acc a]
      exact ih acc
  rw [scanJobs, hfold]

/-- Closed instance of C10: a property list lacking all three field names
yields the all-null result on a listing whose row would otherwise match. -/
theorem scanJobs_without_property_names_witness :
    "job_type_name" ∉ ["foo"] ∧ "task_id" ∉ ["foo"] ∧ "state" ∉ ["foo"] ∧
    scanJobs ["foo"]
        [[JsVal.str "source-test-xpcshell-timings-rev", JsVal.str "T1", JsVal.str "completed"]]
      = { xpcshell := JsVal.null, mochitest := JsVal.null } :=
  ⟨by decide, by decide, by decide,
    scanJobs_without_property_names ["foo"]
      [[JsVal.str "source-test-xpcshell-timings-rev", JsVal.str "T1", JsVal.str "completed"]]
      (by decide) (by decide) (by decide)⟩

/-- C1: after a successful push lookup, the locator follows the `next` link of
each listing page until it is absent, and the scan receives the concatenation
of every page's rows in listed order; if any page's fetch returns `null`, the
whole call fails with the jobs-listing error and produces no partial result. -/
theorem findTimingsJobs_concatenates_pages (env : Env) (fuel : Nat)
    (revision : String) (pid : Nat) (others : List PushEntry)
    (pages : List JobsPage)
    (hpush : env.pushJson (pushUrl revision)
      = some { results := some ({ id := pid } :: others) }) :
    (ChainOk env (jobsUrl pid) pages → pages.length ≤ fuel →
      findTimingsJobsForRevision env fuel revision
        = Except.ok (scanJobs (pagesProps [] pages) (pagesRows pages)))
    ∧ (ChainFail env (jobsUrl pid) pages → pages.length + 1 ≤ fuel →
      findTimingsJobsForRevision env fuel revision
        = Except.error (jobsFailMsg pid)) := by
  constructor
  · intro hch hfuel
    exact findTimingsJobs_chainOk hpush hch hfuel
  · intro hch hfuel
    exact findTimingsJobs_chainFail hpush hch hfuel

/-- Closed instance of C1: on `envTwoPages` both pages' rows reach the scan;
on `envPageFail` the failing second page aborts the whole call. -/
theorem findTimingsJobs_concatenates_pages_witness :
    findTimingsJobsForRevision envTwoPages 2 tryRev
        = Except.ok (scanJobs (pagesProps [] [pageOne, pageTwo])
            (pagesRows [pageOne, pageTwo]))
    ∧ findTimingsJobsForRevision envPageFail 2 tryRev
        = Except.error (jobsFailMsg 7) :=
  ⟨(findTimingsJobs_concatenates_pages envTwoPages 2 tryRev 7 [] [pageOne, pageTwo]
        (by decide)).1
      ⟨by decide, "page2", by decide, by decide, by decide, by decide⟩ (by decide),
    (findTimingsJobs_concatenates_pages envPageFail 2 tryRev 7 [] [pageOne]
        (by decide)).2
      ⟨by decide, "page2", by decide, by decide, by simp only [ChainFail]; decide⟩
      (by decide)⟩

/-- C7: `fetchJson` returns JS `null` for every response whose status is
outside 200–299, returns the parsed body for a success response with valid
JSON, and propagates the parse error for a success response whose body is not
valid JSON. -/
theorem fetchJson_contract (net : String → JsonResponse) (url : String) :
    (¬(200 ≤ (net url).status ∧ (net url).status ≤ 299) →
      fetchJson net url = Except.ok none)
    ∧ (∀ j : Json, 200 ≤ (net url).status → (net url).status ≤ 299 →
        (net url).body = Except.ok j → fetchJson net url = Except.ok (some j))
    ∧ (∀ e : String, 200 ≤ (net url).status → (net url).status ≤ 299 →
        (net url).body = Except.error e → fetchJson net url = Except.error e) := by
  refine ⟨?_, ?_, ?_⟩
  · intro h
    have hok : (net url).ok = false := by
      simp only [JsonResponse.ok, decide_eq_false_iff_not]
      exact h
    simp [fetchJson, hok]
  · intro j h1 h2 hbody
    have hok : (net url).ok = true := by
      simp only [JsonResponse.ok, decide_eq_true_eq]
      exact ⟨h1, h2⟩
    simp [fetchJson, hok, hbody, Except.map]
  · intro e h1 h2 hbody
    have hok : (net url).ok = true := by
      simp only [JsonResponse.ok, decide_eq_true_eq]
      exact ⟨h1, h2⟩
    simp [fetchJson, hok, hbody, Except.map]

/-- Closed instance of C7 on the three concrete networks. -/
theorem fetchJson_contract_witness :
    fetchJson net500 "u" = Except.ok none
    ∧ fetchJson netOkJson "u" = Except.ok (some (Json.num 1))
    ∧ fetchJson netBadBody "u" = Except.error "SyntaxError" :=
  ⟨(fetchJson_contract net500 "u").1 (by decide),
    (fetchJson_contract netOkJson "u").2.1 (Json.num 1) (by decide) (by decide) rfl,
    (fetchJson_contract netBadBody "u").2.2 "SyntaxError" (by decide) (by decide) rfl⟩

/-- C8: harness detection maps a `mochitest-` filename to `"mochitest"`;
`index.json` to the page parameter's value when present and non-empty, else
`"xpcshell"`; and every other filename to `"xpcshell"`. -/
theorem detectHarness_mapping :
    (∀ (page : Page) (filename : String),
      strStartsWith filename "mochitest-" = true →
      detectHarness page filename = "mochitest")
    ∧ (∀ (page : Page) (kind : String),
        page.kindParam = some kind → kind ≠ "" →
        detectHarness page "index.json" = kind)
    ∧ (∀ page : Page, page.kindParam = none ∨ page.kindParam = some "" →
        detectHarness page "index.json" = "xpcshell")
    ∧ (∀ (page : Page) (filename : String),
        strStartsWith filename "mochitest-" = false → filename ≠ "index.json" →
        detectHarness page filename = "xpcshell") := by
  refine ⟨?_, ?_, ?_, ?_⟩
  · intro page filename h
    rw [detectHarness, if_pos h]
  · intro page kind hk hne
    rw [detectHarness, if_neg (by decide), if_pos rfl, getHarnessType, hk]
    simp [hne]
  · intro page h
    rw [detectHarness, if_neg (by decide), if_pos rfl, getHarnessType]
    rcases h with h | h
    · rw [h]
    · rw [h]; simp
  · intro page filename hm hi
    rw [detectHarness, if_neg (by simp [hm]), if_neg hi]

/-- Closed instance of C8 on representative inputs. -/
theorem detectHarness_mapping_witness :
    detectHarness { hostname := "h", kindParam := none } "mochitest-foo.json"
        = "mochitest"
    ∧ detectHarness { hostname := "h", kindParam := some "mochitest" } "index.json"
        = "mochitest"
    ∧ detectHarness { hostname := "h", kindParam := none } "index.json"
        = "xpcshell"
    ∧ detectHarness { hostname := "h", kindParam := some "mochitest" } "xpcshell-foo.json"
        = "xpcshell" :=
  ⟨detectHarness_mapping.1 { hostname := "h", kindParam := none }
      "mochitest-foo.json" (by decide),
    detectHarness_mapping.2.1 { hostname := "h", kindParam := some "mochitest" }
      "mochitest" rfl (by decide),
    detectHarness_mapping.2.2.1 { hostname := "h", kindParam := none } (Or.inl rfl),
    detectHarness_mapping.2.2.2 { hostname := "h", kindParam := some "mochitest" }
      "xpcshell-foo.json" (by decide) (by decide)⟩

/-- C9 as stated fails on the code: `index.json` with page parameter `"foo"`
yields `"foo"`, which is neither harness literal. -/
theorem detectHarness_not_two_valued :
    detectHarness { hostname := "h", kindParam := some "foo" } "index.json" = "foo"
    ∧ ¬("foo" = "xpcshell" ∨ "foo" = "mochitest") := by
  constructor
  · decide
  · decide

/-- C9 amended: harness selection is a total function, and it returns one of
the two harness literals whenever the page parameter is absent, empty, or
itself one of those literals; an arbitrary non-empty parameter value is
returned verbatim for `index.json`. -/
theorem detectHarness_two_valued (page : Page) (filename : String)
    (h : page.kindParam = none ∨ page.kindParam = some ""
      ∨ page.kindParam = some "xpcshell" ∨ page.kindParam = some "mochitest") :
    (detectHarness page filename = "xpcshell"
      ∨ detectHarness page filename = "mochitest")
    ∧ (∀ kind : String, page.kindParam = some kind → kind ≠ "" →
        detectHarness page "index.json" = kind) := by
  constructor
  · rw [detectHarness]
    split
    · right; rfl
    · split
      · rw [getHarnessType]
        rcases h with h | h | h | h <;> rw [h] <;> simp
      · left; rfl
  · intro kind hk hne
    rw [detectHarness, if_neg (by decide), if_pos rfl, getHarnessType, hk]
    simp [hne]

/-- Closed instance of the amended C9. -/
theorem detectHarness_two_valued_witness :
    (detectHarness { hostname := "h", kindParam := some "mochitest" } "index.json"
        = "xpcshell"
      ∨ detectHarness { hostname := "h", kindParam := some "mochitest" } "index.json"
        = "mochitest")
    ∧ detectHarness { hostname := "h", kindParam := some "mochitest" } "index.json"
        = "mochitest" :=
  ⟨(detectHarness_two_valued { hostname := "h", kindParam := some "mochitest" }
      "index.json" (Or.inr (Or.inr (Or.inr rfl)))).1,
    (detectHarness_two_valued { hostname := "h", kindParam := some "mochitest" }
      "index.json" (Or.inr (Or.inr (Or.inr rfl)))).2 "mochitest" rfl (by decide)⟩

/-- C3: in remote mode the try-revision path is taken exactly for filenames
matching `(xpcshell|mochitest)-try-<40 lowercase hex>.json` — in the match
case the result is the job locator's outcome — while `xpcshell-try-abc.json`
(revision not 40 hex chars) does not match, flows into the non-try branch,
and there can reach the legacy xpcshell-try fallback. -/
theorem fetchData_tryPattern_dispatch :
    (∀ filename h' rev : String,
      tryMatchFilename filename = some (h', rev) ↔
        (h' = "xpcshell" ∨ h' = "mochitest") ∧ rev.length = 40 ∧
          rev.data.all isHexLower = true ∧
          filename = h' ++ "-try-" ++ rev ++ ".json")
    ∧ (∀ (env : Env) (fuel : Nat) (filename h' rev e : String),
        tryMatchFilename filename = some (h', rev) →
        findTimingsJobsForRevision env fuel rev = Except.error e →
        fetchDataRemote env fuel filename = errorResponse e)
    ∧ tryMatchFilename "xpcshell-try-abc.json" = none
    ∧ (∀ (env : Env) (fuel : Nat),
        (fetchFromCI env (detectHarness env.page "xpcshell-try-abc.json")
            "xpcshell-try-abc.json").ok = false →
        fetchDataRemote env fuel "xpcshell-try-abc.json"
          = fetchFromCI env "mochitest" "mochitest-try-abc.json") := by
  refine ⟨?_, ?_, ?_, ?_⟩
  · intro filename h' rev
    exact tryMatchFilename_eq_some_iff
  · intro env fuel filename h' rev e hm he
    exact fetchDataRemote_try_error hm he
  · decide
  · intro env fuel hok
    rw [fetchDataRemote_nonTry (by decide), if_neg (by simp [hok]),
      if_pos (by decide)]
    have hrepl : jsReplaceFirst "xpcshell-try-abc.json" "xpcshell-" "mochitest-"
        = "mochitest-try-abc.json" := by decide
    rw [hrepl]

/-- Closed instance of C3: the pattern accepts the well-formed try filename,
a matching filename's result is the locator's 404, and the malformed try
filename reaches the legacy fallback. -/
theorem fetchData_tryPattern_dispatch_witness :
    tryMatchFilename tryFileX = some ("xpcshell", tryRev)
    ∧ fetchDataRemote env404 1 tryFileX = errorResponse (noPushMsg tryRev)
    ∧ fetchDataRemote env404 1 "xpcshell-try-abc.json"
        = fetchFromCI env404 "mochitest" "mochitest-try-abc.json" :=
  ⟨(fetchData_tryPattern_dispatch.1 tryFileX "xpcshell" tryRev).mpr
      ⟨Or.inl rfl, by decide, by decide, by decide⟩,
    fetchData_tryPattern_dispatch.2.1 env404 1 tryFileX "xpcshell" tryRev
      (noPushMsg tryRev) (by decide) rfl,
    fetchData_tryPattern_dispatch.2.2.2 env404 1 (by decide)⟩

/-- C4: in the try path, a requested xpcshell harness whose task id is absent
or whose artifact fetch is not ok, with a mochitest task id present, makes
the orchestrator rewrite the filename's `xpcshell-` to `mochitest-`, fetch by
the mochitest task id and return that response (success or failure) with no
further fallback; a mochitest-requested filename never falls back and yields
the no-job 404 instead. -/
theorem fetchData_xpcshell_fallback (env : Env) (fuel : Nat)
    (filename rev : String) (tj : TimingsJobs) :
    (tryMatchFilename filename = some ("xpcshell", rev) →
      findTimingsJobsForRevision env fuel rev = Except.ok tj →
      (jsTruthy tj.xpcshell = false
        ∨ (env.fetchUrl (taskArtifactUrl (jsToString tj.xpcshell) filename)).ok
            = false) →
      jsTruthy tj.mochitest = true →
      fetchDataRemote env fuel filename
          = env.fetchUrl (taskArtifactUrl (jsToString tj.mochitest)
              (jsReplaceFirst filename "xpcshell-" "mochitest-"))
        ∧ jsReplaceFirst filename "xpcshell-" "mochitest-"
          = "mochitest" ++ "-try-" ++ rev ++ ".json")
    ∧ (tryMatchFilename filename = some ("mochitest", rev) →
        findTimingsJobsForRevision env fuel rev = Except.ok tj →
        (jsTruthy tj.mochitest = false
          ∨ (env.fetchUrl (taskArtifactUrl (jsToString tj.mochitest) filename)).ok
              = false) →
        fetchDataRemote env fuel filename
          = errorResponse (noJobMsg "mochitest" rev)) := by
  constructor
  · intro hm ht hfail hmoch
    have hfail' : jsTruthy (tj.get "xpcshell") = false
        ∨ (env.fetchUrl
            (taskArtifactUrl (jsToString (tj.get "xpcshell")) filename)).ok = false := by
      rw [timingsJobs_get_xpc]
      exact hfail
    constructor
    · rw [fetchDataRemote_try_noRequested hm ht hfail', if_pos ⟨rfl, hmoch⟩]
    · have hfn : filename = "xpcshell" ++ "-try-" ++ rev ++ ".json" :=
        (tryMatchFilename_eq_some_iff.mp hm).2.2.2
      rw [hfn]
      exact xpc_moch_rename rev
  · intro hm ht hfail
    have hfail' : jsTruthy (tj.get "mochitest") = false
        ∨ (env.fetchUrl
            (taskArtifactUrl (jsToString (tj.get "mochitest")) filename)).ok = false := by
      rw [timingsJobs_get_moch]
      exact hfail
    rw [fetchDataRemote_try_noRequested hm ht hfail']
    rw [if_neg (by rintro ⟨h1, _⟩; exact absurd h1 (by decide))]

/-- Closed instance of C4: on `envTryBoth` the xpcshell request falls back to
the mochitest artifact fetch; on `envTwoPages` a mochitest request with no
mochitest job yields the no-job 404, never an xpcshell fetch. -/
theorem fetchData_xpcshell_fallback_witness :
    (fetchDataRemote envTryBoth 1 tryFileX
        = envTryBoth.fetchUrl (taskArtifactUrl (jsToString tjBoth.mochitest)
            (jsReplaceFirst tryFileX "xpcshell-" "mochitest-"))
      ∧ jsReplaceFirst tryFileX "xpcshell-" "mochitest-"
        = "mochitest" ++ "-try-" ++ tryRev ++ ".json")
    ∧ fetchDataRemote envTwoPages 2 tryFileM
        = errorResponse (noJobMsg "mochitest" tryRev) :=
  ⟨(fetchData_xpcshell_fallback envTryBoth 1 tryFileX tryRev tjBoth).1
      (by decide) rfl (Or.inr (by decide)) (by decide),
    (fetchData_xpcshell_fallback envTwoPages 2 tryFileM tryRev tjTwoPages).2
      (by decide) rfl (Or.inl (by decide))⟩

/-- C5: for a filename on the try path, every failure — no push found, a
failing jobs-listing page, or no qualifying job — is converted into a
synthetic response with status 404 whose statusText is the error message, so
the caller always receives a response-shaped value and never a rejection. -/
theorem fetchData_try_converts_failures (env : Env) (fuel : Nat)
    (filename h' rev : String)
    (hm : tryMatchFilename filename = some (h', rev)) :
    ((env.pushJson (pushUrl rev) = none
        ∨ env.pushJson (pushUrl rev) = some { results := none }
        ∨ env.pushJson (pushUrl rev) = some { results := some [] }) →
      (fetchDataRemote env fuel filename).status = 404
        ∧ (fetchDataRemote env fuel filename).statusText = noPushMsg rev)
    ∧ (∀ (pid : Nat) (others : List PushEntry) (pages : List JobsPage),
        env.pushJson (pushUrl rev)
            = some { results := some ({ id := pid } :: others) } →
        ChainFail env (jobsUrl pid) pages → pages.length + 1 ≤ fuel →
        (fetchDataRemote env fuel filename).status = 404
          ∧ (fetchDataRemote env fuel filename).statusText = jobsFailMsg pid)
    ∧ (∀ tj : TimingsJobs,
        findTimingsJobsForRevision env fuel rev = Except.ok tj →
        (jsTruthy (tj.get h') = false
          ∨ (env.fetchUrl
              (taskArtifactUrl (jsToString (tj.get h')) filename)).ok = false) →
        ¬(h' = "xpcshell" ∧ jsTruthy tj.mochitest = true) →
        (fetchDataRemote env fuel filename).status = 404
          ∧ (fetchDataRemote env fuel filename).statusText = noJobMsg h' rev) := by
  refine ⟨?_, ?_, ?_⟩
  · intro hp
    rw [fetchDataRemote_try_error hm (findTimingsJobs_push_fail hp)]
    exact ⟨rfl, rfl⟩
  · intro pid others pages hpush hch hfuel
    rw [fetchDataRemote_try_error hm (findTimingsJobs_chainFail hpush hch hfuel)]
    exact ⟨rfl, rfl⟩
  · intro tj ht hfail hnofb
    rw [fetchDataRemote_try_noRequested hm ht hfail, if_neg hnofb]
    exact ⟨rfl, rfl⟩

/-- Closed instance of C5: each of the three failure kinds yields a 404 whose
statusText is the corresponding error message. -/
theorem fetchData_try_converts_failures_witness :
    ((fetchDataRemote env404 1 tryFileX).status = 404
      ∧ (fetchDataRemote env404 1 tryFileX).statusText = noPushMsg tryRev)
    ∧ ((fetchDataRemote envPageFail 2 tryFileX).status = 404
      ∧ (fetchDataRemote envPageFail 2 tryFileX).statusText = jobsFailMsg 7)
    ∧ ((fetchDataRemote envNoJobs 1 tryFileX).status = 404
      ∧ (fetchDataRemote envNoJobs 1 tryFileX).statusText
          = noJobMsg "xpcshell" tryRev) :=
  ⟨(fetchData_try_converts_failures env404 1 tryFileX "xpcshell" tryRev
        (by decide)).1 (Or.inl rfl),
    (fetchData_try_converts_failures envPageFail 2 tryFileX "xpcshell" tryRev
        (by decide)).2.1 7 [] [pageOne] (by decide)
      ⟨by decide, "page2", by decide, by decide, by simp only [ChainFail]; decide⟩
      (by decide),
    (fetchData_try_converts_failures envNoJobs 1 tryFileX "xpcshell" tryRev
        (by decide)).2.2 { xpcshell := JsVal.null, mochitest := JsVal.null } rfl
      (Or.inl (by decide))
      (by rintro ⟨_, hmoch⟩; exact absurd hmoch (by decide))⟩

/-- C6: in the non-try remote branch the mochitest retry happens if and only
if the CI response is not ok and the filename starts with `xpcshell-try-`;
every other failed response, and every successful response, is returned
unchanged with no fallback. -/
theorem fetchData_nonTry_legacy_fallback (env : Env) (fuel : Nat)
    (filename : String) (hm : tryMatchFilename filename = none) :
    ((fetchFromCI env (detectHarness env.page filename) filename).ok = false →
      strStartsWith filename "xpcshell-try-" = true →
      fetchDataRemote env fuel filename
        = fetchFromCI env "mochitest"
            (jsReplaceFirst filename "xpcshell-" "mochitest-"))
    ∧ ((fetchFromCI env (detectHarness env.page filename) filename).ok = false →
        strStartsWith filename "xpcshell-try-" = false →
        fetchDataRemote env fuel filename
          = fetchFromCI env (detectHarness env.page filename) filename)
    ∧ ((fetchFromCI env (detectHarness env.page filename) filename).ok = true →
        fetchDataRemote env fuel filename
          = fetchFromCI env (detectHarness env.page filename) filename) := by
  refine ⟨?_, ?_, ?_⟩
  · intro hok hs
    rw [fetchDataRemote_nonTry hm, if_neg (by simp [hok]), if_pos hs]
  · intro hok hs
    rw [fetchDataRemote_nonTry hm, if_neg (by simp [hok]), if_neg (by simp [hs])]
  · intro hok
    rw [fetchDataRemote_nonTry hm, if_pos hok]

/-- Closed instance of C6: legacy fallback for a failed `xpcshell-try-`
filename, the unchanged 404 for `xpcshell-foo.json` (scenario D), and the
unchanged success for `index.json`. -/
theorem fetchData_nonTry_legacy_fallback_witness :
    fetchDataRemote env404 3 "xpcshell-try-abc.json"
        = fetchFromCI env404 "mochitest"
            (jsReplaceFirst "xpcshell-try-abc.json" "xpcshell-" "mochitest-")
    ∧ fetchDataRemote env404 3 "xpcshell-foo.json"
        = fetchFromCI env404 (detectHarness env404.page "xpcshell-foo.json")
            "xpcshell-foo.json"
    ∧ fetchDataRemote env200 3 "index.json"
        = fetchFromCI env200 (detectHarness env200.page "index.json") "index.json" :=
  ⟨(fetchData_nonTry_legacy_fallback env404 3 "xpcshell-try-abc.json"
        (by decide)).1 (by decide) (by decide),
    (fetchData_nonTry_legacy_fallback env404 3 "xpcshell-foo.json"
        (by decide)).2.1 (by decide) (by decide),
    (fetchData_nonTry_legacy_fallback env200 3 "index.json"
        (by decide)).2.2 (by decide)⟩

end FetchUtils
